import Mathlib

/-!
Shallow embedding of the payments engine from `src/main.rs`
(rust-challenge-payments).

Modelling choices:
* `MoneyAmount` (a `rust_decimal::Decimal`, exact base-10 fixed point with
  exact addition/subtraction and comparison) is modelled as `ℚ`.
* `ClientId` (`u16`) and `TransactionId` (`u32`) are opaque identifiers,
  modelled as `ℕ`; no arithmetic is ever performed on them.
* The two `HashMap`s are modelled as association lists with insert-replace
  semantics (`ainsert`), mirroring `HashMap::insert` / `entry().or_default()`.
* `Result<(), Error>` becomes `Except Err Unit`; since the Rust functions
  mutate `&mut` state that persists even on early-error returns, each
  translated function returns the resulting state next to the outcome.
-/

namespace Payments

/-- Association-list lookup with decidable key equality, mirroring
`HashMap::get`: the first binding of the key wins. -/
def alookup {β : Type} : List (ℕ × β) → ℕ → Option β
  | [], _ => none
  | (k, v) :: t, a => if a = k then some v else alookup t a

/-- Association-list insert-or-replace, mirroring `HashMap::insert`:
replaces the first binding of the key in place, or appends a new binding. -/
def ainsert {β : Type} : List (ℕ × β) → ℕ → β → List (ℕ × β)
  | [], a, b => [(a, b)]
  | (k, v) :: t, a, b => if a = k then (a, b) :: t else (k, v) :: ainsert t a b

/-- The error type of the application (`enum Error` in `main.rs`); only the
business-rejection variants are reachable from transaction processing, the
I/O variants of the Rust enum concern the out-of-scope adapters. -/
inductive Err : Type
  | DepositWithoutAmount : Err
  | WithdrawalWithoutAmount : Err
  | TransactionWithoutAmount : Err
  | UnknownTransactionId : ℕ → Err
  | NotEnoughAvailableFunds : ℕ → ℚ → ℚ → Err
  | TransactionAlreadyUnderDispute : ℕ → Err
  | TransactionNotUnderDispute : ℕ → Err
  | InvalidAmount : ℚ → Err
  | ClientLocked : ℕ → Err
  | UnknownTransactionType : String → Err
  deriving DecidableEq, Repr

/-- Account data for a client (`struct Client`). -/
structure Client : Type where
  available_funds : ℚ
  held_funds : ℚ
  is_locked : Bool
  deriving DecidableEq, Repr

/-- Default account (`Client::default()`): zero balances, unlocked. -/
def Client.default : Client :=
  { available_funds := 0, held_funds := 0, is_locked := false }

/-- Sum of available and held funds (`Client::total_funds`). -/
def Client.total_funds (c : Client) : ℚ :=
  c.available_funds + c.held_funds

/-- The various states of a disputed transaction (`enum DisputedState`). -/
inductive DisputedState : Type
  | NotDisputed : DisputedState
  | Disputed : DisputedState
  | Resolved : DisputedState
  | ChargedBack : DisputedState
  deriving DecidableEq, Repr

/-- A stored transaction (`struct Transaction`). -/
structure Transaction : Type where
  amount : ℚ
  disputed : DisputedState
  deriving DecidableEq, Repr

/-- An entry in the transaction input (`struct TransactionRecord`). -/
structure TransactionRecord : Type where
  type_string : String
  client_id : ℕ
  id : ℕ
  amount : Option ℚ
  deriving DecidableEq, Repr

/-- Conversion of a record into a stored transaction (the Rust
`TryFrom<TransactionRecord> for Transaction`): requires an amount,
initial dispute state is `NotDisputed` (the `DisputedState` default). -/
def tryFromRecord (r : TransactionRecord) : Except Err Transaction :=
  match r.amount with
  | none => .error .TransactionWithoutAmount
  | some a => .ok { amount := a, disputed := DisputedState.NotDisputed }

/-- The state owned by `process_transactions`: the transaction table and the
client table. -/
structure Ledger : Type where
  transactions : List (ℕ × Transaction)
  clients : List (ℕ × Client)
  deriving DecidableEq, Repr

/-- Process a deposit (`process_deposit`). -/
def process_deposit (client : Client) (amount : Option ℚ) : Except Err Client :=
  match amount with
  | none => .error .DepositWithoutAmount
  | some amount =>
    .ok { client with available_funds := client.available_funds + amount }

/-- Process a withdrawal (`process_withdrawal`). -/
def process_withdrawal (client : Client) (client_id : ℕ) (amount : Option ℚ) :
    Except Err Client :=
  match amount with
  | none => .error .WithdrawalWithoutAmount
  | some amount =>
    if client.available_funds < amount then
      .error (.NotEnoughAvailableFunds client_id amount client.available_funds)
    else
      .ok { client with available_funds := client.available_funds - amount }

/-- Process a dispute (`process_dispute`): mutates the client and the
transaction table, so the translation returns both. -/
def process_dispute (client : Client) (transaction_id : ℕ)
    (transactions : List (ℕ × Transaction)) :
    Except Err (Client × List (ℕ × Transaction)) :=
  match alookup transactions transaction_id with
  | none => .error (.UnknownTransactionId transaction_id)
  | some target =>
    if target.disputed ≠ DisputedState.NotDisputed then
      .error (.TransactionAlreadyUnderDispute transaction_id)
    else
      .ok ({ client with
              held_funds := client.held_funds + target.amount,
              available_funds := client.available_funds - target.amount },
            ainsert transactions transaction_id
              { target with disputed := DisputedState.Disputed })

/-- Process a resolve (`process_resolve`). -/
def process_resolve (client : Client) (transaction_id : ℕ)
    (transactions : List (ℕ × Transaction)) :
    Except Err (Client × List (ℕ × Transaction)) :=
  match alookup transactions transaction_id with
  | none => .error (.UnknownTransactionId transaction_id)
  | some target =>
    if target.disputed ≠ DisputedState.Disputed then
      .error (.TransactionNotUnderDispute transaction_id)
    else
      .ok ({ client with
              held_funds := client.held_funds - target.amount,
              available_funds := client.available_funds + target.amount },
            ainsert transactions transaction_id
              { target with disputed := DisputedState.Resolved })

/-- Process a chargeback (`process_chargeback`). -/
def process_chargeback (client : Client) (transaction_id : ℕ)
    (transactions : List (ℕ × Transaction)) :
    Except Err (Client × List (ℕ × Transaction)) :=
  match alookup transactions transaction_id with
  | none => .error (.UnknownTransactionId transaction_id)
  | some target =>
    if target.disputed ≠ DisputedState.Disputed then
      .error (.TransactionNotUnderDispute transaction_id)
    else
      .ok ({ client with
              held_funds := client.held_funds - target.amount,
              is_locked := true },
            ainsert transactions transaction_id
              { target with disputed := DisputedState.ChargedBack })

/-- The body of `process_transaction` after the amount validity check:
resolve-or-create the client entry, refuse locked accounts, then dispatch on
the type string (the Rust `match` on `&str` is an equality chain). -/
def process_transaction_checked (record : TransactionRecord) (l : Ledger) :
    Except Err Unit × Ledger :=
  let client := (alookup l.clients record.client_id).getD Client.default
  let clients1 := ainsert l.clients record.client_id client
  if client.is_locked then
    (.error (.ClientLocked record.client_id),
      { transactions := l.transactions, clients := clients1 })
  else if record.type_string = "deposit" then
    match process_deposit client record.amount with
    | .error e => (.error e, { transactions := l.transactions, clients := clients1 })
    | .ok client2 =>
      match tryFromRecord record with
      | .error e =>
        (.error e, { transactions := l.transactions,
                     clients := ainsert l.clients record.client_id client2 })
      | .ok tx =>
        (.ok (), { transactions := ainsert l.transactions record.id tx,
                   clients := ainsert l.clients record.client_id client2 })
  else if record.type_string = "withdrawal" then
    match process_withdrawal client record.client_id record.amount with
    | .error e => (.error e, { transactions := l.transactions, clients := clients1 })
    | .ok client2 =>
      match tryFromRecord record with
      | .error e =>
        (.error e, { transactions := l.transactions,
                     clients := ainsert l.clients record.client_id client2 })
      | .ok tx =>
        (.ok (), { transactions := ainsert l.transactions record.id tx,
                   clients := ainsert l.clients record.client_id client2 })
  else if record.type_string = "dispute" then
    match process_dispute client record.id l.transactions with
    | .error e => (.error e, { transactions := l.transactions, clients := clients1 })
    | .ok p =>
      (.ok (), { transactions := p.2,
                 clients := ainsert l.clients record.client_id p.1 })
  else if record.type_string = "resolve" then
    match process_resolve client record.id l.transactions with
    | .error e => (.error e, { transactions := l.transactions, clients := clients1 })
    | .ok p =>
      (.ok (), { transactions := p.2,
                 clients := ainsert l.clients record.client_id p.1 })
  else if record.type_string = "chargeback" then
    match process_chargeback client record.id l.transactions with
    | .error e => (.error e, { transactions := l.transactions, clients := clients1 })
    | .ok p =>
      (.ok (), { transactions := p.2,
                 clients := ainsert l.clients record.client_id p.1 })
  else
    (.error (.UnknownTransactionType record.type_string),
      { transactions := l.transactions, clients := clients1 })

/-- Process a transaction (`process_transaction`): first the amount validity
check (`is_sign_negative() || is_zero()` on `Decimal` rejects negative values,
negative zero and zero, i.e. exactly the non-positive rationals), then the
checked body. -/
def process_transaction (record : TransactionRecord) (l : Ledger) :
    Except Err Unit × Ledger :=
  match record.amount with
  | some amount =>
    if amount < 0 ∨ amount = 0 then
      (.error (.InvalidAmount amount), l)
    else
      process_transaction_checked record l
  | none => process_transaction_checked record l

/-- Does the record carry a negative-or-zero amount (the guard of the
`InvalidAmount` rejection)? -/
def invalid_amount : Option ℚ → Bool
  | some a => decide (a < 0 ∨ a = 0)
  | none => false

/-- The empty ledger `process_transactions` starts from. -/
def Ledger.init : Ledger := { transactions := [], clients := [] }

/-- Fold the per-record step over a record list from a given ledger state; the
loop body of `process_transactions` (a per-record error is logged and the loop
continues with the mutated state). -/
def apply_records (records : List TransactionRecord) (l : Ledger) : Ledger :=
  records.foldl (fun s r => (process_transaction r s).2) l

/-- Reads the transactions and processes them (`process_transactions`),
returning the map of all clients. -/
def process_transactions (records : List TransactionRecord) :
    List (ℕ × Client) :=
  (apply_records records Ledger.init).clients

/-- Round-half-to-even to an integer, the midpoint rule used by
`Decimal::round_dp` (`MidpointNearestEven`). -/
def round_half_even (q : ℚ) : ℤ :=
  if q - ⌊q⌋ < 1 / 2 then ⌊q⌋
  else if q - ⌊q⌋ > 1 / 2 then ⌊q⌋ + 1
  else if ⌊q⌋ % 2 = 0 then ⌊q⌋ else ⌊q⌋ + 1

/-- Rounding to `dp` fractional digits, half to even (`Decimal::round_dp`). -/
def round_dp (dp : ℕ) (q : ℚ) : ℚ :=
  (round_half_even (q * 10 ^ dp) : ℚ) / 10 ^ dp

/-- Writes the client's account status (`write_result`): one row per client
with columns `client, available, held, total, locked`, monetary values rounded
to `DECIMAL_PRECISION = 4` fractional digits at emission time. -/
def write_result (clients : List (ℕ × Client)) :
    List (ℕ × ℚ × ℚ × ℚ × Bool) :=
  clients.map (fun p =>
    (p.1, round_dp 4 p.2.available_funds, round_dp 4 p.2.held_funds,
      round_dp 4 p.2.total_funds, p.2.is_locked))

/-- The account recorded for a client id, defaulting to a fresh zero-balance
account when absent (`clients.entry(id).or_default()` read non-mutatingly). -/
def clientOf (l : Ledger) (c : ℕ) : Client :=
  (alookup l.clients c).getD Client.default

/-- Replay the same record `n` times from a ledger state, keeping the
state after each application (the per-record loop of
`process_transactions` specialised to one repeated record). -/
def replays (r : TransactionRecord) (l : Ledger) : ℕ → Ledger
  | 0 => l
  | n + 1 => (process_transaction r (replays r l n)).2

/-! Concrete fixtures used by the witness theorems. -/

def exTxN : Transaction := { amount := 2, disputed := DisputedState.NotDisputed }

def exTxD : Transaction := { amount := 2, disputed := DisputedState.Disputed }

def exLedgerN : Ledger :=
  { transactions := [(1, exTxN)],
    clients := [(1, { available_funds := 2, held_funds := 0, is_locked := false })] }

def exLedgerD : Ledger :=
  { transactions := [(1, exTxD)],
    clients := [(1, { available_funds := 0, held_funds := 2, is_locked := false })] }

def exLedgerLkd : Ledger :=
  { transactions := [],
    clients := [(1, { available_funds := 1, held_funds := 0, is_locked := true })] }

def exDispute : TransactionRecord :=
  { type_string := "dispute", client_id := 1, id := 1, amount := none }

def exWithdrawal : TransactionRecord :=
  { type_string := "withdrawal", client_id := 1, id := 5, amount := some 1 }

def exChargeback : TransactionRecord :=
  { type_string := "chargeback", client_id := 1, id := 1, amount := none }

def exResolve : TransactionRecord :=
  { type_string := "resolve", client_id := 1, id := 1, amount := none }

def exResolveMissing : TransactionRecord :=
  { type_string := "resolve", client_id := 1, id := 9, amount := none }

def exDisputeMissing : TransactionRecord :=
  { type_string := "dispute", client_id := 1, id := 9, amount := none }

def exDisputeOther : TransactionRecord :=
  { type_string := "dispute", client_id := 2, id := 1, amount := none }

def exBadDeposit : TransactionRecord :=
  { type_string := "deposit", client_id := 1, id := 1, amount := some (-1) }

def exUnknownType : TransactionRecord :=
  { type_string := "transfer", client_id := 7, id := 3, amount := none }

end Payments

namespace Payments

theorem alookup_ainsert_self {β : Type} (m : List (ℕ × β)) (k : ℕ) (v : β) :
    alookup (ainsert m k v) k = some v := by
  induction m with
  | nil => simp [ainsert, alookup]
  | cons p t ih =>
    obtain ⟨k', v'⟩ := p
    by_cases h : k = k'
    · simp [ainsert, h, alookup]
    · simp [ainsert, h, alookup, ih]

theorem alookup_ainsert_ne {β : Type} (m : List (ℕ × β)) (k k' : ℕ) (v : β)
    (h : k' ≠ k) : alookup (ainsert m k v) k' = alookup m k' := by
  induction m with
  | nil => simp [ainsert, alookup, h]
  | cons p t ih =>
    obtain ⟨a, b⟩ := p
    by_cases hk : k = a
    · subst hk
      simp [ainsert, alookup, h]
    · simp only [ainsert, if_neg hk]
      by_cases h' : k' = a
      · simp [alookup, h']
      · simp [alookup, h', ih]

theorem ainsert_lookup_self {β : Type} (m : List (ℕ × β)) (k : ℕ) (v : β)
    (h : alookup m k = some v) : ainsert m k v = m := by
  induction m with
  | nil => simp [alookup] at h
  | cons p t ih =>
    obtain ⟨a, b⟩ := p
    by_cases hk : k = a
    · subst hk
      simp [alookup] at h
      simp [ainsert, h]
    · simp [alookup, hk] at h
      simp [ainsert, hk, ih h]

theorem ainsert_ainsert {β : Type} (m : List (ℕ × β)) (k : ℕ) (v w : β) :
    ainsert (ainsert m k v) k w = ainsert m k w := by
  induction m with
  | nil => simp [ainsert]
  | cons p t ih =>
    obtain ⟨a, b⟩ := p
    by_cases hk : k = a
    · simp [ainsert, hk]
    · simp [ainsert, hk, ih]

theorem process_transaction_eq_checked (r : TransactionRecord) (l : Ledger)
    (hamt : invalid_amount r.amount = false) :
    process_transaction r l = process_transaction_checked r l := by
  obtain ⟨ts, cid, tid, amt⟩ := r
  cases amt with
  | none => rfl
  | some a =>
    simp only [invalid_amount, decide_eq_false_iff_not, not_or] at hamt
    simp [process_transaction, hamt.1, hamt.2]

theorem step_invalid (r : TransactionRecord) (l : Ledger) (a : ℚ)
    (hamt : r.amount = some a) (hbad : a < 0 ∨ a = 0) :
    process_transaction r l = (.error (.InvalidAmount a), l) := by
  obtain ⟨ts, cid, tid, amt⟩ := r
  simp only at hamt
  subst hamt
  simp [process_transaction, hbad]

theorem step_locked (r : TransactionRecord) (l : Ledger)
    (hamt : invalid_amount r.amount = false)
    (hlock : (clientOf l r.client_id).is_locked = true) :
    process_transaction r l =
      (.error (.ClientLocked r.client_id),
        { transactions := l.transactions,
          clients := ainsert l.clients r.client_id (clientOf l r.client_id) }) := by
  rw [process_transaction_eq_checked r l hamt]
  simp only [process_transaction_checked, clientOf] at *
  rw [hlock]
  simp

theorem step_deposit_ok (r : TransactionRecord) (l : Ledger) (a : ℚ)
    (hty : r.type_string = "deposit") (ha : r.amount = some a)
    (hamt : invalid_amount r.amount = false)
    (hlock : (clientOf l r.client_id).is_locked = false) :
    process_transaction r l =
      (.ok (), { transactions := ainsert l.transactions r.id
                   { amount := a, disputed := DisputedState.NotDisputed },
                 clients := ainsert l.clients r.client_id
                   { available_funds := (clientOf l r.client_id).available_funds + a,
                     held_funds := (clientOf l r.client_id).held_funds,
                     is_locked := (clientOf l r.client_id).is_locked } }) := by
  rw [process_transaction_eq_checked r l hamt]
  obtain ⟨ts, cid, tid, amt⟩ := r
  simp only at hty ha hlock ⊢
  subst hty
  subst ha
  simp only [process_transaction_checked, clientOf] at *
  rw [hlock]
  simp [process_deposit, tryFromRecord, hlock]

theorem step_deposit_noamount (r : TransactionRecord) (l : Ledger)
    (hty : r.type_string = "deposit") (ha : r.amount = none)
    (hlock : (clientOf l r.client_id).is_locked = false) :
    process_transaction r l =
      (.error .DepositWithoutAmount,
        { transactions := l.transactions,
          clients := ainsert l.clients r.client_id (clientOf l r.client_id) }) := by
  have hamt : invalid_amount r.amount = false := by rw [ha]; rfl
  rw [process_transaction_eq_checked r l hamt]
  obtain ⟨ts, cid, tid, amt⟩ := r
  simp only at hty ha hlock ⊢
  subst hty
  subst ha
  simp only [process_transaction_checked, clientOf] at *
  rw [hlock]
  simp [process_deposit]

theorem step_withdrawal_ok (r : TransactionRecord) (l : Ledger) (a : ℚ)
    (hty : r.type_string = "withdrawal") (ha : r.amount = some a)
    (hamt : invalid_amount r.amount = false)
    (hlock : (clientOf l r.client_id).is_locked = false)
    (hge : ¬ (clientOf l r.client_id).available_funds < a) :
    process_transaction r l =
      (.ok (), { transactions := ainsert l.transactions r.id
                   { amount := a, disputed := DisputedState.NotDisputed },
                 clients := ainsert l.clients r.client_id
                   { available_funds := (clientOf l r.client_id).available_funds - a,
                     held_funds := (clientOf l r.client_id).held_funds,
                     is_locked := (clientOf l r.client_id).is_locked } }) := by
  rw [process_transaction_eq_checked r l hamt]
  obtain ⟨ts, cid, tid, amt⟩ := r
  simp only at hty ha hlock hge ⊢
  subst hty
  subst ha
  simp only [process_transaction_checked, clientOf] at *
  rw [hlock]
  simp [process_withdrawal, tryFromRecord, hge, hlock]

theorem step_withdrawal_insufficient (r : TransactionRecord) (l : Ledger) (a : ℚ)
    (hty : r.type_string = "withdrawal") (ha : r.amount = some a)
    (hamt : invalid_amount r.amount = false)
    (hlock : (clientOf l r.client_id).is_locked = false)
    (hlt : (clientOf l r.client_id).available_funds < a) :
    process_transaction r l =
      (.error (.NotEnoughAvailableFunds r.client_id a
                 (clientOf l r.client_id).available_funds),
        { transactions := l.transactions,
          clients := ainsert l.clients r.client_id (clientOf l r.client_id) }) := by
  rw [process_transaction_eq_checked r l hamt]
  obtain ⟨ts, cid, tid, amt⟩ := r
  simp only at hty ha hlock hlt ⊢
  subst hty
  subst ha
  simp only [process_transaction_checked, clientOf] at *
  rw [hlock]
  simp [process_withdrawal, hlt]

theorem step_withdrawal_noamount (r : TransactionRecord) (l : Ledger)
    (hty : r.type_string = "withdrawal") (ha : r.amount = none)
    (hlock : (clientOf l r.client_id).is_locked = false) :
    process_transaction r l =
      (.error .WithdrawalWithoutAmount,
        { transactions := l.transactions,
          clients := ainsert l.clients r.client_id (clientOf l r.client_id) }) := by
  have hamt : invalid_amount r.amount = false := by rw [ha]; rfl
  rw [process_transaction_eq_checked r l hamt]
  obtain ⟨ts, cid, tid, amt⟩ := r
  simp only at hty ha hlock ⊢
  subst hty
  subst ha
  simp only [process_transaction_checked, clientOf] at *
  rw [hlock]
  simp [process_withdrawal]

theorem dispute_step (r : TransactionRecord) (l : Ledger) (tx : Transaction)
    (hty : r.type_string = "dispute")
    (hamt : invalid_amount r.amount = false)
    (hlock : (clientOf l r.client_id).is_locked = false)
    (htx : alookup l.transactions r.id = some tx)
    (hnd : tx.disputed = DisputedState.NotDisputed) :
    process_transaction r l =
      (.ok (), { transactions := ainsert l.transactions r.id
                   { amount := tx.amount, disputed := DisputedState.Disputed },
                 clients := ainsert l.clients r.client_id
                   { available_funds := (clientOf l r.client_id).available_funds - tx.amount,
                     held_funds := (clientOf l r.client_id).held_funds + tx.amount,
                     is_locked := (clientOf l r.client_id).is_locked } }) := by
  rw [process_transaction_eq_checked r l hamt]
  obtain ⟨ts, cid, tid, amt⟩ := r
  simp only at hty htx hlock ⊢
  subst hty
  simp only [process_transaction_checked, clientOf] at *
  rw [hlock]
  simp [process_dispute, htx, hnd, hlock]

theorem step_dispute_unknown (r : TransactionRecord) (l : Ledger)
    (hty : r.type_string = "dispute")
    (hamt : invalid_amount r.amount = false)
    (hlock : (clientOf l r.client_id).is_locked = false)
    (htx : alookup l.transactions r.id = none) :
    process_transaction r l =
      (.error (.UnknownTransactionId r.id),
        { transactions := l.transactions,
          clients := ainsert l.clients r.client_id (clientOf l r.client_id) }) := by
  rw [process_transaction_eq_checked r l hamt]
  obtain ⟨ts, cid, tid, amt⟩ := r
  simp only at hty htx hlock ⊢
  subst hty
  simp only [process_transaction_checked, clientOf] at *
  rw [hlock]
  simp [process_dispute, htx]

theorem step_dispute_already (r : TransactionRecord) (l : Ledger) (tx : Transaction)
    (hty : r.type_string = "dispute")
    (hamt : invalid_amount r.amount = false)
    (hlock : (clientOf l r.client_id).is_locked = false)
    (htx : alookup l.transactions r.id = some tx)
    (hnd : tx.disputed ≠ DisputedState.NotDisputed) :
    process_transaction r l =
      (.error (.TransactionAlreadyUnderDispute r.id),
        { transactions := l.transactions,
          clients := ainsert l.clients r.client_id (clientOf l r.client_id) }) := by
  rw [process_transaction_eq_checked r l hamt]
  obtain ⟨ts, cid, tid, amt⟩ := r
  simp only at hty htx hlock ⊢
  subst hty
  simp only [process_transaction_checked, clientOf] at *
  rw [hlock]
  simp [process_dispute, htx, hnd]

theorem resolve_step (r : TransactionRecord) (l : Ledger) (tx : Transaction)
    (hty : r.type_string = "resolve")
    (hamt : invalid_amount r.amount = false)
    (hlock : (clientOf l r.client_id).is_locked = false)
    (htx : alookup l.transactions r.id = some tx)
    (hd : tx.disputed = DisputedState.Disputed) :
    process_transaction r l =
      (.ok (), { transactions := ainsert l.transactions r.id
                   { amount := tx.amount, disputed := DisputedState.Resolved },
                 clients := ainsert l.clients r.client_id
                   { available_funds := (clientOf l r.client_id).available_funds + tx.amount,
                     held_funds := (clientOf l r.client_id).held_funds - tx.amount,
                     is_locked := (clientOf l r.client_id).is_locked } }) := by
  rw [process_transaction_eq_checked r l hamt]
  obtain ⟨ts, cid, tid, amt⟩ := r
  simp only at hty htx hlock ⊢
  subst hty
  simp only [process_transaction_checked, clientOf] at *
  rw [hlock]
  simp [process_resolve, htx, hd, hlock]

theorem step_resolve_unknown (r : TransactionRecord) (l : Ledger)
    (hty : r.type_string = "resolve")
    (hamt : invalid_amount r.amount = false)
    (hlock : (clientOf l r.client_id).is_locked = false)
    (htx : alookup l.transactions r.id = none) :
    process_transaction r l =
      (.error (.UnknownTransactionId r.id),
        { transactions := l.transactions,
          clients := ainsert l.clients r.client_id (clientOf l r.client_id) }) := by
  rw [process_transaction_eq_checked r l hamt]
  obtain ⟨ts, cid, tid, amt⟩ := r
  simp only at hty htx hlock ⊢
  subst hty
  simp only [process_transaction_checked, clientOf] at *
  rw [hlock]
  simp [process_resolve, htx]

theorem step_resolve_not_disputed (r : TransactionRecord) (l : Ledger) (tx : Transaction)
    (hty : r.type_string = "resolve")
    (hamt : invalid_amount r.amount = false)
    (hlock : (clientOf l r.client_id).is_locked = false)
    (htx : alookup l.transactions r.id = some tx)
    (hd : tx.disputed ≠ DisputedState.Disputed) :
    process_transaction r l =
      (.error (.TransactionNotUnderDispute r.id),
        { transactions := l.transactions,
          clients := ainsert l.clients r.client_id (clientOf l r.client_id) }) := by
  rw [process_transaction_eq_checked r l hamt]
  obtain ⟨ts, cid, tid, amt⟩ := r
  simp only at hty htx hlock ⊢
  subst hty
  simp only [process_transaction_checked, clientOf] at *
  rw [hlock]
  simp [process_resolve, htx, hd]

theorem chargeback_step (r : TransactionRecord) (l : Ledger) (tx : Transaction)
    (hty : r.type_string = "chargeback")
    (hamt : invalid_amount r.amount = false)
    (hlock : (clientOf l r.client_id).is_locked = false)
    (htx : alookup l.transactions r.id = some tx)
    (hd : tx.disputed = DisputedState.Disputed) :
    process_transaction r l =
      (.ok (), { transactions := ainsert l.transactions r.id
                   { amount := tx.amount, disputed := DisputedState.ChargedBack },
                 clients := ainsert l.clients r.client_id
                   { available_funds := (clientOf l r.client_id).available_funds,
                     held_funds := (clientOf l r.client_id).held_funds - tx.amount,
                     is_locked := true } }) := by
  rw [process_transaction_eq_checked r l hamt]
  obtain ⟨ts, cid, tid, amt⟩ := r
  simp only at hty htx hlock ⊢
  subst hty
  simp only [process_transaction_checked, clientOf] at *
  rw [hlock]
  simp [process_chargeback, htx, hd]

theorem step_chargeback_unknown (r : TransactionRecord) (l : Ledger)
    (hty : r.type_string = "chargeback")
    (hamt : invalid_amount r.amount = false)
    (hlock : (clientOf l r.client_id).is_locked = false)
    (htx : alookup l.transactions r.id = none) :
    process_transaction r l =
      (.error (.UnknownTransactionId r.id),
        { transactions := l.transactions,
          clients := ainsert l.clients r.client_id (clientOf l r.client_id) }) := by
  rw [process_transaction_eq_checked r l hamt]
  obtain ⟨ts, cid, tid, amt⟩ := r
  simp only at hty htx hlock ⊢
  subst hty
  simp only [process_transaction_checked, clientOf] at *
  rw [hlock]
  simp [process_chargeback, htx]

theorem step_chargeback_not_disputed (r : TransactionRecord) (l : Ledger) (tx : Transaction)
    (hty : r.type_string = "chargeback")
    (hamt : invalid_amount r.amount = false)
    (hlock : (clientOf l r.client_id).is_locked = false)
    (htx : alookup l.transactions r.id = some tx)
    (hd : tx.disputed ≠ DisputedState.Disputed) :
    process_transaction r l =
      (.error (.TransactionNotUnderDispute r.id),
        { transactions := l.transactions,
          clients := ainsert l.clients r.client_id (clientOf l r.client_id) }) := by
  rw [process_transaction_eq_checked r l hamt]
  obtain ⟨ts, cid, tid, amt⟩ := r
  simp only at hty htx hlock ⊢
  subst hty
  simp only [process_transaction_checked, clientOf] at *
  rw [hlock]
  simp [process_chargeback, htx, hd]

theorem step_unknown_type (r : TransactionRecord) (l : Ledger)
    (hamt : invalid_amount r.amount = false)
    (hlock : (clientOf l r.client_id).is_locked = false)
    (h1 : r.type_string ≠ "deposit") (h2 : r.type_string ≠ "withdrawal")
    (h3 : r.type_string ≠ "dispute") (h4 : r.type_string ≠ "resolve")
    (h5 : r.type_string ≠ "chargeback") :
    process_transaction r l =
      (.error (.UnknownTransactionType r.type_string),
        { transactions := l.transactions,
          clients := ainsert l.clients r.client_id (clientOf l r.client_id) }) := by
  rw [process_transaction_eq_checked r l hamt]
  obtain ⟨ts, cid, tid, amt⟩ := r
  simp only at hlock h1 h2 h3 h4 h5 ⊢
  simp only [process_transaction_checked, clientOf] at *
  rw [hlock]
  simp [h1, h2, h3, h4, h5]

theorem clientOf_reinsert (l : Ledger) (txs : List (ℕ × Transaction)) (k c : ℕ) :
    clientOf { transactions := txs, clients := ainsert l.clients k (clientOf l k) } c
      = clientOf l c := by
  by_cases h : c = k
  · subst h
    simp [clientOf, alookup_ainsert_self]
  · simp [clientOf, alookup_ainsert_ne _ _ _ _ h]

theorem ainsert_reinsert_fix {β : Type} (m : List (ℕ × β)) (k : ℕ) (v d : β) :
    ainsert (ainsert m k v) k ((alookup (ainsert m k v) k).getD d) = ainsert m k v := by
  rw [alookup_ainsert_self]
  exact ainsert_ainsert m k v v

theorem alookup_mem {β : Type} (m : List (ℕ × β)) (k : ℕ) (v : β)
    (h : alookup m k = some v) : (k, v) ∈ m := by
  induction m with
  | nil => simp [alookup] at h
  | cons p t ih =>
    obtain ⟨a, b⟩ := p
    by_cases hk : k = a
    · subst hk
      simp [alookup] at h
      simp [h]
    · simp [alookup, hk] at h
      simp [ih h]

theorem invalid_amount_inv (oa : Option ℚ) (h : invalid_amount oa = true) :
    ∃ a, oa = some a ∧ (a < 0 ∨ a = 0) := by
  cases oa with
  | none => simp [invalid_amount] at h
  | some a =>
    refine ⟨a, rfl, ?_⟩
    simpa [invalid_amount] using h

theorem step_clients_shape (r : TransactionRecord) (l : Ledger)
    (hamt : invalid_amount r.amount = false) :
    ∃ v, (process_transaction r l).2.clients = ainsert l.clients r.client_id v := by
  rw [process_transaction_eq_checked r l hamt]
  unfold process_transaction_checked
  dsimp only
  repeat' split
  all_goals exact ⟨_, rfl⟩

theorem step_ok_not_invalid (r : TransactionRecord) (l : Ledger)
    (hok : (process_transaction r l).1 = .ok ()) :
    invalid_amount r.amount = false := by
  by_cases hbad : invalid_amount r.amount = true
  · obtain ⟨a, ha, hb⟩ := invalid_amount_inv r.amount hbad
    rw [step_invalid r l a ha hb] at hok
    simp at hok
  · simpa using hbad

theorem step_ok_not_locked (r : TransactionRecord) (l : Ledger)
    (hok : (process_transaction r l).1 = .ok ()) :
    (clientOf l r.client_id).is_locked = false := by
  have hamt := step_ok_not_invalid r l hok
  by_cases hlock : (clientOf l r.client_id).is_locked = true
  · rw [step_locked r l hamt hlock] at hok
    simp at hok
  · simpa using hlock

theorem step_ok_dispute_inv (r : TransactionRecord) (l : Ledger)
    (hty : r.type_string = "dispute")
    (hok : (process_transaction r l).1 = .ok ()) :
    ∃ tx, alookup l.transactions r.id = some tx ∧
      tx.disputed = DisputedState.NotDisputed := by
  have hamt := step_ok_not_invalid r l hok
  have hlock := step_ok_not_locked r l hok
  cases hl : alookup l.transactions r.id with
  | none =>
    rw [step_dispute_unknown r l hty hamt hlock hl] at hok
    simp at hok
  | some tx =>
    by_cases hnd : tx.disputed = DisputedState.NotDisputed
    · exact ⟨tx, rfl, hnd⟩
    · rw [step_dispute_already r l tx hty hamt hlock hl hnd] at hok
      simp at hok

theorem step_ok_resolve_inv (r : TransactionRecord) (l : Ledger)
    (hty : r.type_string = "resolve")
    (hok : (process_transaction r l).1 = .ok ()) :
    ∃ tx, alookup l.transactions r.id = some tx ∧
      tx.disputed = DisputedState.Disputed := by
  have hamt := step_ok_not_invalid r l hok
  have hlock := step_ok_not_locked r l hok
  cases hl : alookup l.transactions r.id with
  | none =>
    rw [step_resolve_unknown r l hty hamt hlock hl] at hok
    simp at hok
  | some tx =>
    by_cases hd : tx.disputed = DisputedState.Disputed
    · exact ⟨tx, rfl, hd⟩
    · rw [step_resolve_not_disputed r l tx hty hamt hlock hl hd] at hok
      simp at hok

theorem step_ok_chargeback_inv (r : TransactionRecord) (l : Ledger)
    (hty : r.type_string = "chargeback")
    (hok : (process_transaction r l).1 = .ok ()) :
    ∃ tx, alookup l.transactions r.id = some tx ∧
      tx.disputed = DisputedState.Disputed := by
  have hamt := step_ok_not_invalid r l hok
  have hlock := step_ok_not_locked r l hok
  cases hl : alookup l.transactions r.id with
  | none =>
    rw [step_chargeback_unknown r l hty hamt hlock hl] at hok
    simp at hok
  | some tx =>
    by_cases hd : tx.disputed = DisputedState.Disputed
    · exact ⟨tx, rfl, hd⟩
    · rw [step_chargeback_not_disputed r l tx hty hamt hlock hl hd] at hok
      simp at hok

theorem step_error_stable (r : TransactionRecord) (l : Ledger) (e : Err)
    (h : (process_transaction r l).1 = .error e) :
    process_transaction r (process_transaction r l).2 =
      (.error e, (process_transaction r l).2) := by
  by_cases hbad : invalid_amount r.amount = true
  · obtain ⟨a, ha, hb⟩ := invalid_amount_inv r.amount hbad
    rw [step_invalid r l a ha hb] at h ⊢
    simp only at h
    obtain rfl : Err.InvalidAmount a = e := by injection h
    exact step_invalid r l a ha hb
  · have hamt : invalid_amount r.amount = false := by simpa using hbad
    have hC : clientOf (Ledger.mk l.transactions
        (ainsert l.clients r.client_id (clientOf l r.client_id))) r.client_id
        = clientOf l r.client_id :=
      clientOf_reinsert l l.transactions r.client_id r.client_id
    have hfix : ainsert (ainsert l.clients r.client_id (clientOf l r.client_id)) r.client_id
        (clientOf (Ledger.mk l.transactions
          (ainsert l.clients r.client_id (clientOf l r.client_id))) r.client_id)
        = ainsert l.clients r.client_id (clientOf l r.client_id) := by
      rw [hC]
      exact ainsert_ainsert l.clients r.client_id (clientOf l r.client_id) (clientOf l r.client_id)
    by_cases hlock : (clientOf l r.client_id).is_locked = true
    · rw [step_locked r l hamt hlock] at h ⊢
      dsimp only at h ⊢
      obtain rfl : Err.ClientLocked r.client_id = e := by injection h
      rw [step_locked r (Ledger.mk l.transactions
        (ainsert l.clients r.client_id (clientOf l r.client_id))) hamt
        ((congrArg Client.is_locked hC).trans hlock)]
      rw [hfix]
    · have hlockf : (clientOf l r.client_id).is_locked = false := by simpa using hlock
      have hCL : (clientOf (Ledger.mk l.transactions
          (ainsert l.clients r.client_id (clientOf l r.client_id))) r.client_id).is_locked
          = false := (congrArg Client.is_locked hC).trans hlockf
      by_cases h1 : r.type_string = "deposit"
      · cases ha : r.amount with
        | some a =>
          rw [step_deposit_ok r l a h1 ha hamt hlockf] at h
          simp at h
        | none =>
          rw [step_deposit_noamount r l h1 ha hlockf] at h ⊢
          dsimp only at h ⊢
          obtain rfl : Err.DepositWithoutAmount = e := by injection h
          rw [step_deposit_noamount r (Ledger.mk l.transactions
            (ainsert l.clients r.client_id (clientOf l r.client_id))) h1 ha hCL]
          rw [hfix]
      · by_cases h2 : r.type_string = "withdrawal"
        · cases ha : r.amount with
          | some a =>
            by_cases hlt : (clientOf l r.client_id).available_funds < a
            · rw [step_withdrawal_insufficient r l a h2 ha hamt hlockf hlt] at h ⊢
              dsimp only at h ⊢
              obtain rfl : Err.NotEnoughAvailableFunds r.client_id a
                  (clientOf l r.client_id).available_funds = e := by injection h
              rw [step_withdrawal_insufficient r (Ledger.mk l.transactions
                (ainsert l.clients r.client_id (clientOf l r.client_id))) a h2 ha hamt hCL
                (by rw [hC] ; exact hlt)]
              rw [hfix, hC]
            · rw [step_withdrawal_ok r l a h2 ha hamt hlockf hlt] at h
              simp at h
          | none =>
            rw [step_withdrawal_noamount r l h2 ha hlockf] at h ⊢
            dsimp only at h ⊢
            obtain rfl : Err.WithdrawalWithoutAmount = e := by injection h
            rw [step_withdrawal_noamount r (Ledger.mk l.transactions
              (ainsert l.clients r.client_id (clientOf l r.client_id))) h2 ha hCL]
            rw [hfix]
        · by_cases h3 : r.type_string = "dispute"
          · cases hl : alookup l.transactions r.id with
            | none =>
              rw [step_dispute_unknown r l h3 hamt hlockf hl] at h ⊢
              dsimp only at h ⊢
              obtain rfl : Err.UnknownTransactionId r.id = e := by injection h
              rw [step_dispute_unknown r (Ledger.mk l.transactions
                (ainsert l.clients r.client_id (clientOf l r.client_id))) h3 hamt hCL hl]
              rw [hfix]
            | some tx =>
              by_cases hnd : tx.disputed = DisputedState.NotDisputed
              · rw [dispute_step r l tx h3 hamt hlockf hl hnd] at h
                simp at h
              · rw [step_dispute_already r l tx h3 hamt hlockf hl hnd] at h ⊢
                dsimp only at h ⊢
                obtain rfl : Err.TransactionAlreadyUnderDispute r.id = e := by injection h
                rw [step_dispute_already r (Ledger.mk l.transactions
                  (ainsert l.clients r.client_id (clientOf l r.client_id))) tx h3 hamt hCL hl hnd]
                rw [hfix]
          · by_cases h4 : r.type_string = "resolve"
            · cases hl : alookup l.transactions r.id with
              | none =>
                rw [step_resolve_unknown r l h4 hamt hlockf hl] at h ⊢
                dsimp only at h ⊢
                obtain rfl : Err.UnknownTransactionId r.id = e := by injection h
                rw [step_resolve_unknown r (Ledger.mk l.transactions
                  (ainsert l.clients r.client_id (clientOf l r.client_id))) h4 hamt hCL hl]
                rw [hfix]
              | some tx =>
                by_cases hd : tx.disputed = DisputedState.Disputed
                · rw [resolve_step r l tx h4 hamt hlockf hl hd] at h
                  simp at h
                · rw [step_resolve_not_disputed r l tx h4 hamt hlockf hl hd] at h ⊢
                  dsimp only at h ⊢
                  obtain rfl : Err.TransactionNotUnderDispute r.id = e := by injection h
                  rw [step_resolve_not_disputed r (Ledger.mk l.transactions
                    (ainsert l.clients r.client_id (clientOf l r.client_id))) tx h4 hamt hCL hl hd]
                  rw [hfix]
            · by_cases h5 : r.type_string = "chargeback"
              · cases hl : alookup l.transactions r.id with
                | none =>
                  rw [step_chargeback_unknown r l h5 hamt hlockf hl] at h ⊢
                  dsimp only at h ⊢
                  obtain rfl : Err.UnknownTransactionId r.id = e := by injection h
                  rw [step_chargeback_unknown r (Ledger.mk l.transactions
                    (ainsert l.clients r.client_id (clientOf l r.client_id))) h5 hamt hCL hl]
                  rw [hfix]
                | some tx =>
                  by_cases hd : tx.disputed = DisputedState.Disputed
                  · rw [chargeback_step r l tx h5 hamt hlockf hl hd] at h
                    simp at h
                  · rw [step_chargeback_not_disputed r l tx h5 hamt hlockf hl hd] at h ⊢
                    dsimp only at h ⊢
                    obtain rfl : Err.TransactionNotUnderDispute r.id = e := by injection h
                    rw [step_chargeback_not_disputed r (Ledger.mk l.transactions
                      (ainsert l.clients r.client_id (clientOf l r.client_id))) tx h5 hamt hCL hl hd]
                    rw [hfix]
              · rw [step_unknown_type r l hamt hlockf h1 h2 h3 h4 h5] at h ⊢
                dsimp only at h ⊢
                obtain rfl : Err.UnknownTransactionType r.type_string = e := by injection h
                rw [step_unknown_type r (Ledger.mk l.transactions
                  (ainsert l.clients r.client_id (clientOf l r.client_id))) hamt hCL h1 h2 h3 h4 h5]
                rw [hfix]

theorem step_preserves_other_client (r : TransactionRecord) (l : Ledger) (c : ℕ)
    (hc : c ≠ r.client_id) :
    clientOf (process_transaction r l).2 c = clientOf l c := by
  by_cases hbad : invalid_amount r.amount = true
  · obtain ⟨a, ha, hb⟩ := invalid_amount_inv r.amount hbad
    rw [step_invalid r l a ha hb]
  · obtain ⟨v, hv⟩ := step_clients_shape r l (by simpa using hbad)
    simp only [clientOf, hv, alookup_ainsert_ne _ _ _ _ hc]

theorem step_locked_preserves_client (r : TransactionRecord) (l : Ledger) (c : ℕ)
    (h : (clientOf l c).is_locked = true) :
    clientOf (process_transaction r l).2 c = clientOf l c := by
  by_cases hc : c = r.client_id
  · subst hc
    by_cases hbad : invalid_amount r.amount = true
    · obtain ⟨a, ha, hb⟩ := invalid_amount_inv r.amount hbad
      rw [step_invalid r l a ha hb]
    · rw [step_locked r l (by simpa using hbad) h]
      exact clientOf_reinsert l l.transactions r.client_id r.client_id
  · exact step_preserves_other_client r l c hc

theorem step_locked_rejects (r : TransactionRecord) (l : Ledger)
    (h : (clientOf l r.client_id).is_locked = true) :
    ∃ e, (process_transaction r l).1 = .error e := by
  by_cases hbad : invalid_amount r.amount = true
  · obtain ⟨a, ha, hb⟩ := invalid_amount_inv r.amount hbad
    exact ⟨.InvalidAmount a, by rw [step_invalid r l a ha hb]⟩
  · exact ⟨.ClientLocked r.client_id, by rw [step_locked r l (by simpa using hbad) h]⟩

theorem step_error_clients (r : TransactionRecord) (l : Ledger) (e : Err)
    (hamt : invalid_amount r.amount = false)
    (hlockf : (clientOf l r.client_id).is_locked = false)
    (h : (process_transaction r l).1 = .error e) :
    (process_transaction r l).2.clients
      = ainsert l.clients r.client_id (clientOf l r.client_id) := by
  by_cases h1 : r.type_string = "deposit"
  · cases ha : r.amount with
    | some a =>
      rw [step_deposit_ok r l a h1 ha hamt hlockf] at h
      simp at h
    | none => rw [step_deposit_noamount r l h1 ha hlockf]
  · by_cases h2 : r.type_string = "withdrawal"
    · cases ha : r.amount with
      | some a =>
        by_cases hlt : (clientOf l r.client_id).available_funds < a
        · rw [step_withdrawal_insufficient r l a h2 ha hamt hlockf hlt]
        · rw [step_withdrawal_ok r l a h2 ha hamt hlockf hlt] at h
          simp at h
      | none => rw [step_withdrawal_noamount r l h2 ha hlockf]
    · by_cases h3 : r.type_string = "dispute"
      · cases hl : alookup l.transactions r.id with
        | none => rw [step_dispute_unknown r l h3 hamt hlockf hl]
        | some tx =>
          by_cases hnd : tx.disputed = DisputedState.NotDisputed
          · rw [dispute_step r l tx h3 hamt hlockf hl hnd] at h
            simp at h
          · rw [step_dispute_already r l tx h3 hamt hlockf hl hnd]
      · by_cases h4 : r.type_string = "resolve"
        · cases hl : alookup l.transactions r.id with
          | none => rw [step_resolve_unknown r l h4 hamt hlockf hl]
          | some tx =>
            by_cases hd : tx.disputed = DisputedState.Disputed
            · rw [resolve_step r l tx h4 hamt hlockf hl hd] at h
              simp at h
            · rw [step_resolve_not_disputed r l tx h4 hamt hlockf hl hd]
        · by_cases h5 : r.type_string = "chargeback"
          · cases hl : alookup l.transactions r.id with
            | none => rw [step_chargeback_unknown r l h5 hamt hlockf hl]
            | some tx =>
              by_cases hd : tx.disputed = DisputedState.Disputed
              · rw [chargeback_step r l tx h5 hamt hlockf hl hd] at h
                simp at h
              · rw [step_chargeback_not_disputed r l tx h5 hamt hlockf hl hd]
          · rw [step_unknown_type r l hamt hlockf h1 h2 h3 h4 h5]

theorem step_error_transactions (r : TransactionRecord) (l : Ledger) (e : Err)
    (h : (process_transaction r l).1 = .error e) :
    (process_transaction r l).2.transactions = l.transactions := by
  by_cases hbad : invalid_amount r.amount = true
  · obtain ⟨a, ha, hb⟩ := invalid_amount_inv r.amount hbad
    rw [step_invalid r l a ha hb]
  · have hamt : invalid_amount r.amount = false := by simpa using hbad
    by_cases hlock : (clientOf l r.client_id).is_locked = true
    · rw [step_locked r l hamt hlock]
    · have hlockf : (clientOf l r.client_id).is_locked = false := by simpa using hlock
      by_cases h1 : r.type_string = "deposit"
      · cases ha : r.amount with
        | some a =>
          rw [step_deposit_ok r l a h1 ha hamt hlockf] at h
          simp at h
        | none => rw [step_deposit_noamount r l h1 ha hlockf]
      · by_cases h2 : r.type_string = "withdrawal"
        · cases ha : r.amount with
          | some a =>
            by_cases hlt : (clientOf l r.client_id).available_funds < a
            · rw [step_withdrawal_insufficient r l a h2 ha hamt hlockf hlt]
            · rw [step_withdrawal_ok r l a h2 ha hamt hlockf hlt] at h
              simp at h
          | none => rw [step_withdrawal_noamount r l h2 ha hlockf]
        · by_cases h3 : r.type_string = "dispute"
          · cases hl : alookup l.transactions r.id with
            | none => rw [step_dispute_unknown r l h3 hamt hlockf hl]
            | some tx =>
              by_cases hnd : tx.disputed = DisputedState.NotDisputed
              · rw [dispute_step r l tx h3 hamt hlockf hl hnd] at h
                simp at h
              · rw [step_dispute_already r l tx h3 hamt hlockf hl hnd]
          · by_cases h4 : r.type_string = "resolve"
            · cases hl : alookup l.transactions r.id with
              | none => rw [step_resolve_unknown r l h4 hamt hlockf hl]
              | some tx =>
                by_cases hd : tx.disputed = DisputedState.Disputed
                · rw [resolve_step r l tx h4 hamt hlockf hl hd] at h
                  simp at h
                · rw [step_resolve_not_disputed r l tx h4 hamt hlockf hl hd]
            · by_cases h5 : r.type_string = "chargeback"
              · cases hl : alookup l.transactions r.id with
                | none => rw [step_chargeback_unknown r l h5 hamt hlockf hl]
                | some tx =>
                  by_cases hd : tx.disputed = DisputedState.Disputed
                  · rw [chargeback_step r l tx h5 hamt hlockf hl hd] at h
                    simp at h
                  · rw [step_chargeback_not_disputed r l tx h5 hamt hlockf hl hd]
              · rw [step_unknown_type r l hamt hlockf h1 h2 h3 h4 h5]

theorem apply_records_cons (r : TransactionRecord) (rs : List TransactionRecord)
    (l : Ledger) :
    apply_records (r :: rs) l = apply_records rs (process_transaction r l).2 := rfl

theorem locked_client_preserved (c : ℕ) (rs : List TransactionRecord) :
    ∀ l : Ledger, (clientOf l c).is_locked = true →
      clientOf (apply_records rs l) c = clientOf l c := by
  induction rs with
  | nil => intro l _ ; rfl
  | cons r rs ih =>
    intro l h
    rw [apply_records_cons]
    have hstep := step_locked_preserves_client r l c h
    rw [ih (process_transaction r l).2 (by rw [hstep] ; exact h), hstep]

/-- C1: an accepted dispute moves the target's amount from available to held
funds of the disputing record's client, marks the target `Disputed`, and
leaves the derived total unchanged. -/
theorem dispute_shifts_available_to_held (r : TransactionRecord) (l : Ledger)
    (tx : Transaction) (hty : r.type_string = "dispute")
    (htx : alookup l.transactions r.id = some tx)
    (hok : (process_transaction r l).1 = .ok ()) :
    (clientOf (process_transaction r l).2 r.client_id).held_funds
        = (clientOf l r.client_id).held_funds + tx.amount ∧
    (clientOf (process_transaction r l).2 r.client_id).available_funds
        = (clientOf l r.client_id).available_funds - tx.amount ∧
    alookup (process_transaction r l).2.transactions r.id
        = some { amount := tx.amount, disputed := DisputedState.Disputed } ∧
    (clientOf (process_transaction r l).2 r.client_id).total_funds
        = (clientOf l r.client_id).total_funds := by
  have hamt := step_ok_not_invalid r l hok
  have hlock := step_ok_not_locked r l hok
  obtain ⟨tx', hl', hnd'⟩ := step_ok_dispute_inv r l hty hok
  rw [htx] at hl'
  obtain rfl : tx = tx' := by injection hl'
  rw [dispute_step r l tx hty hamt hlock htx hnd']
  refine ⟨?_, ?_, ?_, ?_⟩
  · simp [clientOf, alookup_ainsert_self]
  · simp [clientOf, alookup_ainsert_self]
  · exact alookup_ainsert_self _ _ _
  · simp only [clientOf, alookup_ainsert_self, Option.getD_some, Client.total_funds]
    ring

/-- C2: a withdrawal with a present positive amount on an unlocked account is
rejected with `NotEnoughAvailableFunds` (carrying the requested amount and the
current available balance) exactly when `available < amount`; when accepted it
debits available funds by the amount and stores the transaction under the
record's id in state `NotDisputed`. -/
theorem withdrawal_requires_available_funds (r : TransactionRecord) (l : Ledger)
    (a : ℚ) (hty : r.type_string = "withdrawal") (ha : r.amount = some a)
    (hpos : 0 < a) (hlock : (clientOf l r.client_id).is_locked = false) :
    ((process_transaction r l).1
        = .error (.NotEnoughAvailableFunds r.client_id a
            (clientOf l r.client_id).available_funds)
      ↔ (clientOf l r.client_id).available_funds < a) ∧
    (¬ (clientOf l r.client_id).available_funds < a →
      (process_transaction r l).1 = .ok () ∧
      (clientOf (process_transaction r l).2 r.client_id).available_funds
          = (clientOf l r.client_id).available_funds - a ∧
      alookup (process_transaction r l).2.transactions r.id
          = some { amount := a, disputed := DisputedState.NotDisputed }) := by
  have hamt : invalid_amount r.amount = false := by
    rw [ha]
    simp only [invalid_amount, decide_eq_false_iff_not, not_or]
    exact ⟨not_lt.mpr hpos.le, ne_of_gt hpos⟩
  by_cases hlt : (clientOf l r.client_id).available_funds < a
  · rw [step_withdrawal_insufficient r l a hty ha hamt hlock hlt]
    constructor
    · simp [hlt]
    · intro hge
      exact absurd hlt hge
  · rw [step_withdrawal_ok r l a hty ha hamt hlock hlt]
    constructor
    · simp [hlt]
    · intro _
      refine ⟨rfl, ?_, ?_⟩
      · simp [clientOf, alookup_ainsert_self]
      · exact alookup_ainsert_self _ _ _

/-- C3: an accepted chargeback debits held funds by the target's amount,
leaves available funds untouched, locks the account and marks the target
`ChargedBack`; and whenever a stored transaction is in state `ChargedBack`,
any dispute, resolve or chargeback naming its id is rejected and leaves the
transaction table unchanged. -/
theorem chargeback_writes_off_held_and_locks (r : TransactionRecord)
    (l : Ledger) (tx : Transaction) (hty : r.type_string = "chargeback")
    (htx : alookup l.transactions r.id = some tx)
    (hok : (process_transaction r l).1 = .ok ()) :
    (clientOf (process_transaction r l).2 r.client_id).held_funds
        = (clientOf l r.client_id).held_funds - tx.amount ∧
    (clientOf (process_transaction r l).2 r.client_id).available_funds
        = (clientOf l r.client_id).available_funds ∧
    (clientOf (process_transaction r l).2 r.client_id).is_locked = true ∧
    alookup (process_transaction r l).2.transactions r.id
        = some { amount := tx.amount, disputed := DisputedState.ChargedBack } ∧
    (∀ (l₂ : Ledger) (r₂ : TransactionRecord) (tx₂ : Transaction),
      (r₂.type_string = "dispute" ∨ r₂.type_string = "resolve" ∨
        r₂.type_string = "chargeback") →
      alookup l₂.transactions r₂.id = some tx₂ →
      tx₂.disputed = DisputedState.ChargedBack →
      (∃ e, (process_transaction r₂ l₂).1 = .error e) ∧
      (process_transaction r₂ l₂).2.transactions = l₂.transactions) := by
  have hamt := step_ok_not_invalid r l hok
  have hlock := step_ok_not_locked r l hok
  obtain ⟨tx', hl', hd'⟩ := step_ok_chargeback_inv r l hty hok
  rw [htx] at hl'
  obtain rfl : tx = tx' := by injection hl'
  rw [chargeback_step r l tx hty hamt hlock htx hd']
  refine ⟨?_, ?_, ?_, ?_, ?_⟩
  · simp [clientOf, alookup_ainsert_self]
  · simp [clientOf, alookup_ainsert_self]
  · simp [clientOf, alookup_ainsert_self]
  · exact alookup_ainsert_self _ _ _
  · intro l₂ r₂ tx₂ hty₂ htx₂ hcb
    have herr : ∃ e, (process_transaction r₂ l₂).1 = .error e := by
      by_cases hbad : invalid_amount r₂.amount = true
      · obtain ⟨a, ha, hb⟩ := invalid_amount_inv r₂.amount hbad
        exact ⟨_, by rw [step_invalid r₂ l₂ a ha hb]⟩
      · have hamt₂ : invalid_amount r₂.amount = false := by simpa using hbad
        by_cases hlk : (clientOf l₂ r₂.client_id).is_locked = true
        · exact ⟨_, by rw [step_locked r₂ l₂ hamt₂ hlk]⟩
        · have hlkf : (clientOf l₂ r₂.client_id).is_locked = false := by
            simpa using hlk
          rcases hty₂ with h | h | h
          · exact ⟨_, by rw [step_dispute_already r₂ l₂ tx₂ h hamt₂ hlkf htx₂
              (by rw [hcb] ; simp)]⟩
          · exact ⟨_, by rw [step_resolve_not_disputed r₂ l₂ tx₂ h hamt₂ hlkf htx₂
              (by rw [hcb] ; simp)]⟩
          · exact ⟨_, by rw [step_chargeback_not_disputed r₂ l₂ tx₂ h hamt₂ hlkf htx₂
              (by rw [hcb] ; simp)]⟩
    obtain ⟨e, he⟩ := herr
    exact ⟨⟨e, he⟩, step_error_transactions r₂ l₂ e he⟩

/-- C4: once an account is locked it stays locked and its fields are never
changed again by any later record, and every later record naming that client
is rejected. -/
theorem locked_account_final (l : Ledger) (c : ℕ)
    (h : (clientOf l c).is_locked = true) :
    (∀ rs, clientOf (apply_records rs l) c = clientOf l c) ∧
    (∀ rs (r : TransactionRecord), r.client_id = c →
      (∃ e, (process_transaction r (apply_records rs l)).1 = .error e) ∧
      clientOf (process_transaction r (apply_records rs l)).2 c = clientOf l c) := by
  have hpres : ∀ rs, clientOf (apply_records rs l) c = clientOf l c :=
    fun rs => locked_client_preserved c rs l h
  refine ⟨hpres, ?_⟩
  intro rs r hrc
  have hl' : (clientOf (apply_records rs l) c).is_locked = true := by
    rw [hpres rs]
    exact h
  constructor
  · exact step_locked_rejects r (apply_records rs l) (by rw [hrc, hpres rs] ; exact h)
  · rw [step_locked_preserves_client r (apply_records rs l) c hl', hpres rs]

/-- C5: an accepted resolve returns the target's amount from held to
available funds and marks it `Resolved`; a dispute immediately followed by a
resolve of the same transaction by the same client restores available and
held funds to their values before the dispute. -/
theorem resolve_reverses_dispute (r : TransactionRecord) (l : Ledger)
    (tx : Transaction) (hty : r.type_string = "resolve")
    (htx : alookup l.transactions r.id = some tx)
    (hok : (process_transaction r l).1 = .ok ()) :
    (clientOf (process_transaction r l).2 r.client_id).held_funds
        = (clientOf l r.client_id).held_funds - tx.amount ∧
    (clientOf (process_transaction r l).2 r.client_id).available_funds
        = (clientOf l r.client_id).available_funds + tx.amount ∧
    alookup (process_transaction r l).2.transactions r.id
        = some { amount := tx.amount, disputed := DisputedState.Resolved } ∧
    (∀ (rd rr : TransactionRecord) (l₀ : Ledger),
      rd.type_string = "dispute" → rr.type_string = "resolve" →
      rr.id = rd.id → rr.client_id = rd.client_id →
      invalid_amount rr.amount = false →
      (process_transaction rd l₀).1 = .ok () →
      (process_transaction rr (process_transaction rd l₀).2).1 = .ok () ∧
      (clientOf (process_transaction rr (process_transaction rd l₀).2).2
          rd.client_id).available_funds
        = (clientOf l₀ rd.client_id).available_funds ∧
      (clientOf (process_transaction rr (process_transaction rd l₀).2).2
          rd.client_id).held_funds
        = (clientOf l₀ rd.client_id).held_funds) := by
  have hamt := step_ok_not_invalid r l hok
  have hlock := step_ok_not_locked r l hok
  obtain ⟨tx', hl', hd'⟩ := step_ok_resolve_inv r l hty hok
  rw [htx] at hl'
  obtain rfl : tx = tx' := by injection hl'
  rw [resolve_step r l tx hty hamt hlock htx hd']
  refine ⟨?_, ?_, ?_, ?_⟩
  · simp [clientOf, alookup_ainsert_self]
  · simp [clientOf, alookup_ainsert_self]
  · exact alookup_ainsert_self _ _ _
  · intro rd rr l₀ htyd htyr hid hcid hamtr hokd
    have hamtd := step_ok_not_invalid rd l₀ hokd
    have hlockd := step_ok_not_locked rd l₀ hokd
    obtain ⟨tx₀, hl₀, hnd₀⟩ := step_ok_dispute_inv rd l₀ htyd hokd
    rw [dispute_step rd l₀ tx₀ htyd hamtd hlockd hl₀ hnd₀] at *
    have hlk₁ : (clientOf (Ledger.mk
        (ainsert l₀.transactions rd.id
          { amount := tx₀.amount, disputed := DisputedState.Disputed })
        (ainsert l₀.clients rd.client_id
          { available_funds := (clientOf l₀ rd.client_id).available_funds - tx₀.amount,
            held_funds := (clientOf l₀ rd.client_id).held_funds + tx₀.amount,
            is_locked := (clientOf l₀ rd.client_id).is_locked }))
        rr.client_id).is_locked = false := by
      rw [hcid]
      simp only [clientOf, alookup_ainsert_self, Option.getD_some]
      exact hlockd
    have htx₁ : alookup (Ledger.mk
        (ainsert l₀.transactions rd.id
          { amount := tx₀.amount, disputed := DisputedState.Disputed })
        (ainsert l₀.clients rd.client_id
          { available_funds := (clientOf l₀ rd.client_id).available_funds - tx₀.amount,
            held_funds := (clientOf l₀ rd.client_id).held_funds + tx₀.amount,
            is_locked := (clientOf l₀ rd.client_id).is_locked })).transactions rr.id
        = some { amount := tx₀.amount, disputed := DisputedState.Disputed } := by
      rw [hid]
      exact alookup_ainsert_self _ _ _
    rw [resolve_step rr _ { amount := tx₀.amount, disputed := DisputedState.Disputed }
      htyr hamtr hlk₁ htx₁ rfl]
    refine ⟨rfl, ?_, ?_⟩
    · simp [clientOf, alookup_ainsert_self, hcid]
    · simp [clientOf, alookup_ainsert_self, hcid]

/-- C6: validation order — a record carrying a non-positive amount is
rejected with `InvalidAmount` regardless of its type string and of the lock
flag, leaving the state untouched; otherwise the account entry is resolved
(created if absent) and, when locked, the record is rejected with
`ClientLocked` whatever its type string. -/
theorem validation_order_invalid_amount_then_locked (r : TransactionRecord)
    (l : Ledger) :
    (∀ a, r.amount = some a → (a < 0 ∨ a = 0) →
      process_transaction r l = (.error (.InvalidAmount a), l)) ∧
    (invalid_amount r.amount = false →
      (alookup (process_transaction r l).2.clients r.client_id).isSome = true ∧
      ((clientOf l r.client_id).is_locked = true →
        process_transaction r l = (.error (.ClientLocked r.client_id),
          Ledger.mk l.transactions
            (ainsert l.clients r.client_id (clientOf l r.client_id))))) := by
  constructor
  · intro a ha hbad
    exact step_invalid r l a ha hbad
  · intro hamt
    constructor
    · obtain ⟨v, hv⟩ := step_clients_shape r l hamt
      rw [hv, alookup_ainsert_self]
      rfl
    · intro hlock
      exact step_locked r l hamt hlock

/-- C7: a dispute, resolve or chargeback whose target transaction is absent
or in the wrong dispute state is rejected with one of
`UnknownTransactionId`, `TransactionAlreadyUnderDispute`,
`TransactionNotUnderDispute`, and every client's fields and every stored
transaction are unchanged. -/
theorem dispute_family_bad_target_rejected (r : TransactionRecord) (l : Ledger)
    (hty : r.type_string = "dispute" ∨ r.type_string = "resolve" ∨
      r.type_string = "chargeback")
    (hamt : invalid_amount r.amount = false)
    (hlock : (clientOf l r.client_id).is_locked = false)
    (hbad : alookup l.transactions r.id = none ∨
      ∃ tx, alookup l.transactions r.id = some tx ∧
        ((r.type_string = "dispute" ∧ tx.disputed ≠ DisputedState.NotDisputed) ∨
         ((r.type_string = "resolve" ∨ r.type_string = "chargeback") ∧
           tx.disputed ≠ DisputedState.Disputed))) :
    (∃ e, (process_transaction r l).1 = .error e ∧
      (e = .UnknownTransactionId r.id ∨ e = .TransactionAlreadyUnderDispute r.id ∨
        e = .TransactionNotUnderDispute r.id)) ∧
    (∀ c, clientOf (process_transaction r l).2 c = clientOf l c) ∧
    (∀ t, alookup (process_transaction r l).2.transactions t
      = alookup l.transactions t) := by
  have herr : ∃ e, (process_transaction r l).1 = .error e ∧
      (e = .UnknownTransactionId r.id ∨ e = .TransactionAlreadyUnderDispute r.id ∨
        e = .TransactionNotUnderDispute r.id) := by
    rcases hbad with hnone | ⟨tx, htx, hcase⟩
    · rcases hty with h | h | h
      · exact ⟨_, by rw [step_dispute_unknown r l h hamt hlock hnone], Or.inl rfl⟩
      · exact ⟨_, by rw [step_resolve_unknown r l h hamt hlock hnone], Or.inl rfl⟩
      · exact ⟨_, by rw [step_chargeback_unknown r l h hamt hlock hnone], Or.inl rfl⟩
    · rcases hcase with ⟨hd, hnd⟩ | ⟨hrc, hnd⟩
      · exact ⟨_, by rw [step_dispute_already r l tx hd hamt hlock htx hnd],
          Or.inr (Or.inl rfl)⟩
      · rcases hrc with h | h
        · exact ⟨_, by rw [step_resolve_not_disputed r l tx h hamt hlock htx hnd],
            Or.inr (Or.inr rfl)⟩
        · exact ⟨_, by rw [step_chargeback_not_disputed r l tx h hamt hlock htx hnd],
            Or.inr (Or.inr rfl)⟩
  obtain ⟨e, he, hwhich⟩ := herr
  refine ⟨⟨e, he, hwhich⟩, ?_, ?_⟩
  · intro c
    have hcl := step_error_clients r l e hamt hlock he
    by_cases hc : c = r.client_id
    · subst hc
      simp [clientOf, hcl, alookup_ainsert_self]
    · simp [clientOf, hcl, alookup_ainsert_ne _ _ _ _ hc]
  · intro t
    rw [step_error_transactions r l e he]

/-- C8: a record the engine rejects in a given ledger state can be replayed
any number of times: each replay produces the same rejection reason and the
ledger (clients map and transactions map) is identical before and after
every replay. -/
theorem rejected_record_replay_idempotent (r : TransactionRecord) (l : Ledger)
    (e : Err) (h : (process_transaction r l).1 = .error e) :
    ∀ n, replays r (process_transaction r l).2 n = (process_transaction r l).2 ∧
      (process_transaction r (replays r (process_transaction r l).2 n)).1
        = .error e := by
  have key := step_error_stable r l e h
  intro n
  induction n with
  | zero =>
    refine ⟨rfl, ?_⟩
    show (process_transaction r (process_transaction r l).2).1 = .error e
    rw [key]
  | succ n ih =>
    obtain ⟨h1, h2⟩ := ih
    have hst : replays r (process_transaction r l).2 (n + 1)
        = (process_transaction r l).2 := by
      show (process_transaction r (replays r (process_transaction r l).2 n)).2
        = (process_transaction r l).2
      rw [h1, key]
    refine ⟨hst, ?_⟩
    rw [hst, key]

/-- C9: the engine never matches the disputing client against the client of
the targeted transaction: any client whose account is unlocked can dispute
any stored `NotDisputed` transaction, and the funds move inside the
disputing client's own account while every other client is untouched. -/
theorem dispute_ignores_client_ownership (r : TransactionRecord) (l : Ledger)
    (tx : Transaction) (b : ℕ) (hty : r.type_string = "dispute")
    (hamt : invalid_amount r.amount = false)
    (htx : alookup l.transactions r.id = some tx)
    (hnd : tx.disputed = DisputedState.NotDisputed)
    (hlock : (clientOf l r.client_id).is_locked = false)
    (hb : b ≠ r.client_id) :
    (process_transaction r l).1 = .ok () ∧
    (clientOf (process_transaction r l).2 r.client_id).held_funds
        = (clientOf l r.client_id).held_funds + tx.amount ∧
    (clientOf (process_transaction r l).2 r.client_id).available_funds
        = (clientOf l r.client_id).available_funds - tx.amount ∧
    clientOf (process_transaction r l).2 b = clientOf l b := by
  rw [dispute_step r l tx hty hamt hlock htx hnd]
  refine ⟨rfl, ?_, ?_, ?_⟩
  · simp [clientOf, alookup_ainsert_self]
  · simp [clientOf, alookup_ainsert_self]
  · simp [clientOf, alookup_ainsert_ne _ _ _ _ hb]

/-- C10: a record naming a fresh client id and carrying no non-positive
amount creates the zero-balance account entry before the type string is
checked, so even a rejected record leaves the fresh zero-balance account in
the clients map and it appears as a row of the final output; only an
`InvalidAmount` rejection leaves the state (hence the clients map) without
the new entry. -/
theorem account_created_before_type_check (r : TransactionRecord) (l : Ledger)
    (hfresh : alookup l.clients r.client_id = none) :
    (invalid_amount r.amount = false →
      (alookup (process_transaction r l).2.clients r.client_id).isSome = true ∧
      (∀ e, (process_transaction r l).1 = .error e →
        alookup (process_transaction r l).2.clients r.client_id
          = some Client.default) ∧
      (∃ row ∈ write_result (process_transaction r l).2.clients,
        row.1 = r.client_id)) ∧
    (invalid_amount r.amount = true → (process_transaction r l).2 = l) := by
  have hcd : clientOf l r.client_id = Client.default := by
    simp [clientOf, hfresh]
  constructor
  · intro hamt
    obtain ⟨v, hv⟩ := step_clients_shape r l hamt
    refine ⟨?_, ?_, ?_⟩
    · rw [hv, alookup_ainsert_self]
      rfl
    · intro e he
      have hcl := step_error_clients r l e hamt (by rw [hcd] ; rfl) he
      rw [hcl, hcd, alookup_ainsert_self]
    · refine ⟨(r.client_id, round_dp 4 v.available_funds, round_dp 4 v.held_funds,
        round_dp 4 v.total_funds, v.is_locked), ?_, rfl⟩
      have hmem : (r.client_id, v) ∈ (process_transaction r l).2.clients := by
        apply alookup_mem
        rw [hv]
        exact alookup_ainsert_self _ _ _
      exact List.mem_map_of_mem _ hmem
  · intro hbad
    obtain ⟨a, ha, hb⟩ := invalid_amount_inv r.amount hbad
    rw [step_invalid r l a ha hb]

/-- Witness for C1 at a concrete accepted dispute. -/
theorem dispute_shifts_available_to_held_witness :
    (clientOf (process_transaction exDispute exLedgerN).2 exDispute.client_id).held_funds
        = (clientOf exLedgerN exDispute.client_id).held_funds + exTxN.amount ∧
    (clientOf (process_transaction exDispute exLedgerN).2 exDispute.client_id).available_funds
        = (clientOf exLedgerN exDispute.client_id).available_funds - exTxN.amount ∧
    alookup (process_transaction exDispute exLedgerN).2.transactions exDispute.id
        = some { amount := exTxN.amount, disputed := DisputedState.Disputed } ∧
    (clientOf (process_transaction exDispute exLedgerN).2 exDispute.client_id).total_funds
        = (clientOf exLedgerN exDispute.client_id).total_funds :=
  dispute_shifts_available_to_held exDispute exLedgerN exTxN rfl rfl rfl

/-- Witness for C2 at a concrete withdrawal. -/
theorem withdrawal_requires_available_funds_witness :
    ((process_transaction exWithdrawal exLedgerN).1
        = .error (.NotEnoughAvailableFunds exWithdrawal.client_id 1
            (clientOf exLedgerN exWithdrawal.client_id).available_funds)
      ↔ (clientOf exLedgerN exWithdrawal.client_id).available_funds < 1) ∧
    (¬ (clientOf exLedgerN exWithdrawal.client_id).available_funds < 1 →
      (process_transaction exWithdrawal exLedgerN).1 = .ok () ∧
      (clientOf (process_transaction exWithdrawal exLedgerN).2
          exWithdrawal.client_id).available_funds
        = (clientOf exLedgerN exWithdrawal.client_id).available_funds - 1 ∧
      alookup (process_transaction exWithdrawal exLedgerN).2.transactions
          exWithdrawal.id
        = some { amount := 1, disputed := DisputedState.NotDisputed }) :=
  withdrawal_requires_available_funds exWithdrawal exLedgerN 1 rfl rfl one_pos rfl

/-- Witness for C3 at a concrete accepted chargeback. -/
theorem chargeback_writes_off_held_and_locks_witness :
    (clientOf (process_transaction exChargeback exLedgerD).2
        exChargeback.client_id).held_funds
      = (clientOf exLedgerD exChargeback.client_id).held_funds - exTxD.amount ∧
    (clientOf (process_transaction exChargeback exLedgerD).2
        exChargeback.client_id).available_funds
      = (clientOf exLedgerD exChargeback.client_id).available_funds ∧
    (clientOf (process_transaction exChargeback exLedgerD).2
        exChargeback.client_id).is_locked = true ∧
    alookup (process_transaction exChargeback exLedgerD).2.transactions
        exChargeback.id
      = some { amount := exTxD.amount, disputed := DisputedState.ChargedBack } ∧
    (∀ (l₂ : Ledger) (r₂ : TransactionRecord) (tx₂ : Transaction),
      (r₂.type_string = "dispute" ∨ r₂.type_string = "resolve" ∨
        r₂.type_string = "chargeback") →
      alookup l₂.transactions r₂.id = some tx₂ →
      tx₂.disputed = DisputedState.ChargedBack →
      (∃ e, (process_transaction r₂ l₂).1 = .error e) ∧
      (process_transaction r₂ l₂).2.transactions = l₂.transactions) :=
  chargeback_writes_off_held_and_locks exChargeback exLedgerD exTxD rfl rfl rfl

/-- Witness for C4 at a concrete locked account. -/
theorem locked_account_final_witness :
    (∀ rs, clientOf (apply_records rs exLedgerLkd) 1 = clientOf exLedgerLkd 1) ∧
    (∀ rs (r : TransactionRecord), r.client_id = 1 →
      (∃ e, (process_transaction r (apply_records rs exLedgerLkd)).1 = .error e) ∧
      clientOf (process_transaction r (apply_records rs exLedgerLkd)).2 1
        = clientOf exLedgerLkd 1) :=
  locked_account_final exLedgerLkd 1 rfl

/-- Witness for C5 at a concrete accepted resolve. -/
theorem resolve_reverses_dispute_witness :
    (clientOf (process_transaction exResolve exLedgerD).2
        exResolve.client_id).held_funds
      = (clientOf exLedgerD exResolve.client_id).held_funds - exTxD.amount ∧
    (clientOf (process_transaction exResolve exLedgerD).2
        exResolve.client_id).available_funds
      = (clientOf exLedgerD exResolve.client_id).available_funds + exTxD.amount ∧
    alookup (process_transaction exResolve exLedgerD).2.transactions exResolve.id
      = some { amount := exTxD.amount, disputed := DisputedState.Resolved } ∧
    (∀ (rd rr : TransactionRecord) (l₀ : Ledger),
      rd.type_string = "dispute" → rr.type_string = "resolve" →
      rr.id = rd.id → rr.client_id = rd.client_id →
      invalid_amount rr.amount = false →
      (process_transaction rd l₀).1 = .ok () →
      (process_transaction rr (process_transaction rd l₀).2).1 = .ok () ∧
      (clientOf (process_transaction rr (process_transaction rd l₀).2).2
          rd.client_id).available_funds
        = (clientOf l₀ rd.client_id).available_funds ∧
      (clientOf (process_transaction rr (process_transaction rd l₀).2).2
          rd.client_id).held_funds
        = (clientOf l₀ rd.client_id).held_funds) :=
  resolve_reverses_dispute exResolve exLedgerD exTxD rfl rfl rfl

/-- Witness for C6 at a concrete deposit with a negative amount. -/
theorem validation_order_invalid_amount_then_locked_witness :
    (∀ a, exBadDeposit.amount = some a → (a < 0 ∨ a = 0) →
      process_transaction exBadDeposit Ledger.init
        = (.error (.InvalidAmount a), Ledger.init)) ∧
    (invalid_amount exBadDeposit.amount = false →
      (alookup (process_transaction exBadDeposit Ledger.init).2.clients
          exBadDeposit.client_id).isSome = true ∧
      ((clientOf Ledger.init exBadDeposit.client_id).is_locked = true →
        process_transaction exBadDeposit Ledger.init
          = (.error (.ClientLocked exBadDeposit.client_id),
            Ledger.mk Ledger.init.transactions
              (ainsert Ledger.init.clients exBadDeposit.client_id
                (clientOf Ledger.init exBadDeposit.client_id))))) :=
  validation_order_invalid_amount_then_locked exBadDeposit Ledger.init

/-- Witness for C7 at a concrete resolve of a missing transaction id. -/
theorem dispute_family_bad_target_rejected_witness :
    (∃ e, (process_transaction exResolveMissing exLedgerN).1 = .error e ∧
      (e = .UnknownTransactionId exResolveMissing.id ∨
        e = .TransactionAlreadyUnderDispute exResolveMissing.id ∨
        e = .TransactionNotUnderDispute exResolveMissing.id)) ∧
    (∀ c, clientOf (process_transaction exResolveMissing exLedgerN).2 c
      = clientOf exLedgerN c) ∧
    (∀ t, alookup (process_transaction exResolveMissing exLedgerN).2.transactions t
      = alookup exLedgerN.transactions t) :=
  dispute_family_bad_target_rejected exResolveMissing exLedgerN
    (Or.inr (Or.inl rfl)) rfl rfl (Or.inl rfl)

/-- Witness for C8 at a concrete rejected dispute, replayed twice. -/
theorem rejected_record_replay_idempotent_witness :
    replays exDisputeMissing
        (process_transaction exDisputeMissing exLedgerN).2 2
      = (process_transaction exDisputeMissing exLedgerN).2 ∧
    (process_transaction exDisputeMissing
        (replays exDisputeMissing
          (process_transaction exDisputeMissing exLedgerN).2 2)).1
      = .error (.UnknownTransactionId 9) :=
  rejected_record_replay_idempotent exDisputeMissing exLedgerN
    (.UnknownTransactionId 9) rfl 2

/-- Witness for C9: client 2 disputes client 1's transaction. -/
theorem dispute_ignores_client_ownership_witness :
    (process_transaction exDisputeOther exLedgerN).1 = .ok () ∧
    (clientOf (process_transaction exDisputeOther exLedgerN).2
        exDisputeOther.client_id).held_funds
      = (clientOf exLedgerN exDisputeOther.client_id).held_funds + exTxN.amount ∧
    (clientOf (process_transaction exDisputeOther exLedgerN).2
        exDisputeOther.client_id).available_funds
      = (clientOf exLedgerN exDisputeOther.client_id).available_funds
          - exTxN.amount ∧
    clientOf (process_transaction exDisputeOther exLedgerN).2 1
      = clientOf exLedgerN 1 :=
  dispute_ignores_client_ownership exDisputeOther exLedgerN exTxN 1
    rfl rfl rfl rfl rfl (by decide)

/-- Witness for C10 at a concrete unrecognized record from a fresh client. -/
theorem account_created_before_type_check_witness :
    (invalid_amount exUnknownType.amount = false →
      (alookup (process_transaction exUnknownType exLedgerN).2.clients
          exUnknownType.client_id).isSome = true ∧
      (∀ e, (process_transaction exUnknownType exLedgerN).1 = .error e →
        alookup (process_transaction exUnknownType exLedgerN).2.clients
            exUnknownType.client_id
          = some Client.default) ∧
      (∃ row ∈ write_result (process_transaction exUnknownType exLedgerN).2.clients,
        row.1 = exUnknownType.client_id)) ∧
    (invalid_amount exUnknownType.amount = true →
      (process_transaction exUnknownType exLedgerN).2 = exLedgerN) :=
  account_created_before_type_check exUnknownType exLedgerN rfl
